import Mathlib

/-!
Verification of the `token_usage_metrics` client-side telemetry pipeline:
the in-memory event buffer, the circuit breaker gating delivery, the
delivery/flush path, validation in `log`, the query operation, and the
aggregation contract.  The core package is not shipped with the repository
(only example callers are), so the core components are modelled here from
the specification's component contracts.
-/

/-- Modelled from the spec: `UsageEvent` (§3 Data Model) — immutable record
with generated `id`, `project`, `request_type`, token counts, a metadata
mapping (modelled as an association list of string pairs) and a creation
`timestamp` (UTC, modelled as seconds since epoch). -/
structure UsageEvent where
  id : Nat
  project : String
  request_type : String
  input_tokens : Int
  output_tokens : Int
  metadata : List (String × String)
  timestamp : Nat
deriving Repr, DecidableEq

/-- Modelled from the spec: `BufferState` / `EventBuffer` (§3, §4.1) — a
bounded FIFO of pending events (head = oldest) with a capacity bound and a
count of dropped events. -/
structure EventBuffer where
  capacity : Nat
  events : List UsageEvent
  dropped : Nat
deriving Repr, DecidableEq

namespace EventBuffer

/-- Modelled from the spec: `size()` (§4.1). -/
def size (b : EventBuffer) : Nat := b.events.length

/-- Modelled from the spec: `dropped_count()` (§4.1). -/
def dropped_count (b : EventBuffer) : Nat := b.dropped

/-- Modelled from the spec: `enqueue(event) -> bool` under the default
drop policy (§4.1): when full, the incoming event is dropped (not the
oldest) and `dropped_count` is incremented; producers never block. -/
def enqueue (b : EventBuffer) (e : UsageEvent) : Bool × EventBuffer :=
  if b.events.length < b.capacity then
    (true, { b with events := b.events ++ [e] })
  else
    (false, { b with dropped := b.dropped + 1 })

/-- Modelled from the spec: `dequeue_batch(max_size)` (§4.1) — removes and
returns up to `max_size` oldest events, non-blocking. -/
def dequeue_batch (b : EventBuffer) (max_size : Nat) :
    List UsageEvent × EventBuffer :=
  (b.events.take max_size, { b with events := b.events.drop max_size })

/-- Modelled from the spec: failure-path re-enqueue (§4.3 step 5) — the
failed batch is put back at the front of the buffer, in order, up to
capacity; batch events that do not fit are counted as dropped. -/
def reenqueue_front (b : EventBuffer) (batch : List UsageEvent) : EventBuffer :=
  let room := b.capacity - b.events.length
  { b with
    events := batch.take room ++ b.events
    dropped := b.dropped + (batch.length - room) }

end EventBuffer

/-- Modelled from the spec: `CircuitState` (§3) — `Closed` (passing),
`Open` (blocking), `HalfOpen` (probing). -/
inductive CircuitState where
  | Closed
  | Open
  | HalfOpen
deriving Repr, DecidableEq

/-- Modelled from the spec: the circuit breaker's state record (§3, §4.2):
current state, consecutive failure count, time of the last state
transition, probes in flight while `HalfOpen`, and the configuration
(threshold `F`, cool-down `T`, trial allowance `N`). -/
structure CircuitBreaker where
  state : CircuitState
  consecutiveFailures : Nat
  lastTransition : Nat
  probesInFlight : Nat
  failureThreshold : Nat
  cooldown : Nat
  maxProbes : Nat
deriving Repr, DecidableEq

namespace CircuitBreaker

/-- Modelled from the spec: `allow()` (§4.2) — true unconditionally in
`Closed`; in `Open`, false until the cool-down elapses, at which point the
`Open → HalfOpen` transition is evaluated lazily and the call is admitted
as a probe; in `HalfOpen`, true for at most `N` concurrent probe attempts.
Takes the current time (the lazy transition needs it) and returns the
updated breaker along with the verdict. -/
def allow (cb : CircuitBreaker) (now : Nat) : Bool × CircuitBreaker :=
  match cb.state with
  | CircuitState.Closed => (true, cb)
  | CircuitState.Open =>
      if cb.lastTransition + cb.cooldown ≤ now then
        (true, { cb with
                   state := CircuitState.HalfOpen
                   lastTransition := now
                   probesInFlight := 1 })
      else
        (false, cb)
  | CircuitState.HalfOpen =>
      if cb.probesInFlight < cb.maxProbes then
        (true, { cb with probesInFlight := cb.probesInFlight + 1 })
      else
        (false, cb)

/-- Modelled from the spec: `record_success()` (§4.2) — resets the
consecutive failure count; `HalfOpen → Closed` on the first success while
probing. -/
def record_success (cb : CircuitBreaker) (now : Nat) : CircuitBreaker :=
  match cb.state with
  | CircuitState.HalfOpen =>
      { cb with
          state := CircuitState.Closed
          consecutiveFailures := 0
          probesInFlight := 0
          lastTransition := now }
  | _ => { cb with consecutiveFailures := 0 }

/-- Modelled from the spec: `record_failure()` (§4.2) — `Closed → Open`
when consecutive failures reach the threshold `F`; `HalfOpen → Open` on
any failure while probing. -/
def record_failure (cb : CircuitBreaker) (now : Nat) : CircuitBreaker :=
  match cb.state with
  | CircuitState.Closed =>
      if cb.failureThreshold ≤ cb.consecutiveFailures + 1 then
        { cb with
            state := CircuitState.Open
            consecutiveFailures := cb.consecutiveFailures + 1
            lastTransition := now }
      else
        { cb with consecutiveFailures := cb.consecutiveFailures + 1 }
  | CircuitState.Open =>
      { cb with consecutiveFailures := cb.consecutiveFailures + 1 }
  | CircuitState.HalfOpen =>
      { cb with
          state := CircuitState.Open
          consecutiveFailures := cb.consecutiveFailures + 1
          probesInFlight := 0
          lastTransition := now }

end CircuitBreaker

/-- `record_failure` applied `n` times in a row at time `t`. -/
def iterate_failures : CircuitBreaker → Nat → Nat → CircuitBreaker
  | cb, _, 0 => cb
  | cb, t, Nat.succ n => iterate_failures (cb.record_failure t) t n

/-- Modelled from the spec: `ValidationError` (§7) — malformed event,
e.g. negative token counts, rejected synchronously by `log()`. -/
inductive ValidationError where
  | negative_tokens
deriving Repr, DecidableEq

/-- Modelled from the spec: the `TokenUsageClient` facade (§2, §6) — owns
the buffer, the circuit breaker and the delivery path; the durable backend
(behind `StorageGateway.write_batch`) is modelled as the list of events
already delivered, and backend calls are counted observably in
`write_batch_calls`. -/
structure TokenUsageClient where
  buffer : EventBuffer
  breaker : CircuitBreaker
  backend : List UsageEvent
  next_id : Nat
  batch_size : Nat
  write_batch_calls : Nat
deriving Repr, DecidableEq

namespace TokenUsageClient

/-- Modelled from the spec: `log(project, request_type, input_tokens,
output_tokens, metadata?) -> accepted` (§6, §7): negative token counts are
rejected synchronously with a `ValidationError` and never buffered;
otherwise a `UsageEvent` is created (id generated at enqueue time,
timestamp assigned once) and enqueued, the buffer's drop policy deciding
acceptance. -/
def log (c : TokenUsageClient) (project request_type : String)
    (input_tokens output_tokens : Int) (metadata : List (String × String))
    (now : Nat) : Except ValidationError (Bool × TokenUsageClient) :=
  if input_tokens < 0 ∨ output_tokens < 0 then
    Except.error ValidationError.negative_tokens
  else
    let e : UsageEvent :=
      { id := c.next_id
        project := project
        request_type := request_type
        input_tokens := input_tokens
        output_tokens := output_tokens
        metadata := metadata
        timestamp := now }
    let r := c.buffer.enqueue e
    Except.ok (r.1, { c with buffer := r.2, next_id := c.next_id + 1 })

/-- The client state observable after a `log` call, whether or not the
event was rejected (a rejected `log` leaves the client unchanged). -/
def after_log (c : TokenUsageClient) (project request_type : String)
    (input_tokens output_tokens : Int) (metadata : List (String × String))
    (now : Nat) : TokenUsageClient :=
  match c.log project request_type input_tokens output_tokens metadata now with
  | Except.error _ => c
  | Except.ok r => r.2

/-- Outcome of one delivery attempt (§4.3 steps 2–5): the circuit denied
the attempt, the buffer was empty, the batch was written, or the write
failed. -/
inductive DeliverResult where
  | denied
  | idle
  | success (delivered : Nat)
  | failure
deriving Repr, DecidableEq

/-- Modelled from the spec: one cycle of the DeliveryWorker (§4.3 steps
2–5).  If `allow()` is false the cycle is skipped (events stay buffered,
no backend call).  Otherwise up to `batch_size` events are dequeued and
`write_batch` is called (`backend_ok` models the backend's verdict): on
success `record_success()` runs and the batch is owned by the backend; on
failure `record_failure()` runs and the batch is re-enqueued at the front
up to capacity, the overflow counted as dropped. -/
def deliver_once (c : TokenUsageClient) (backend_ok : Bool) (now : Nat) :
    DeliverResult × TokenUsageClient :=
  let a := c.breaker.allow now
  if a.1 then
    let d := c.buffer.dequeue_batch c.batch_size
    if d.1 = [] then
      (DeliverResult.idle, { c with breaker := a.2, buffer := d.2 })
    else if backend_ok then
      (DeliverResult.success d.1.length,
       { c with
           breaker := a.2.record_success now
           buffer := d.2
           backend := c.backend ++ d.1
           write_batch_calls := c.write_batch_calls + 1 })
    else
      (DeliverResult.failure,
       { c with
           breaker := a.2.record_failure now
           buffer := d.2.reenqueue_front d.1
           write_batch_calls := c.write_batch_calls + 1 })
  else
    (DeliverResult.denied, { c with breaker := a.2 })

end TokenUsageClient

/-- Modelled from the spec: the delivery attempts driven by a
`flush(timeout)` call (§4.3): delivery cycles run through the normal path
(steps 2–5) until the buffer drains, the circuit denies an attempt, or the
timeout (modelled as a budget of delivery cycles) expires; the count of
events successfully delivered during the call is accumulated. -/
def flush_loop : Bool → Nat → Nat → TokenUsageClient → Nat × TokenUsageClient
  | _, _, 0, c => (0, c)
  | backend_ok, now, Nat.succ fuel, c =>
    match c.deliver_once backend_ok now with
    | (TokenUsageClient.DeliverResult.denied, c1) => (0, c1)
    | (TokenUsageClient.DeliverResult.idle, c1) => (0, c1)
    | (TokenUsageClient.DeliverResult.success n, c1) =>
        let r := flush_loop backend_ok now fuel c1
        (n + r.1, r.2)
    | (TokenUsageClient.DeliverResult.failure, c1) =>
        flush_loop backend_ok now fuel c1

namespace TokenUsageClient

/-- Modelled from the spec: `flush(timeout) -> delivered_count` (§4.3,
§6) — forces an immediate delivery attempt through the normal delivery
path, waits up to the timeout for the buffer to drain, and returns the
number of events successfully delivered during the call.  It does not
bypass the circuit breaker. -/
def flush (c : TokenUsageClient) (timeout : Nat) (backend_ok : Bool)
    (now : Nat) : Nat × TokenUsageClient :=
  flush_loop backend_ok now timeout c

/-- Modelled from the spec: `query(project?, request_type?, time_from?,
time_to?, limit, cursor?) -> (events, next_cursor)` (§4.4, §6) — filters
are conjunctive, absence of a filter means unrestricted; keyset pagination
by event id; only stored (backend) events are visible.  Every parameter
but the client carries a default, so the operation is callable with only a
project filter. -/
def query (c : TokenUsageClient)
    (project : Option String := none)
    (request_type : Option String := none)
    (time_from : Option Nat := none)
    (time_to : Option Nat := none)
    (limit : Nat := 100)
    (cursor : Option Nat := none) :
    List UsageEvent × Option Nat :=
  let keep : UsageEvent → Bool := fun e =>
    (match project with
     | none => true
     | some p => decide (e.project = p)) &&
    (match request_type with
     | none => true
     | some r => decide (e.request_type = r)) &&
    (match time_from with
     | none => true
     | some t => decide (t ≤ e.timestamp)) &&
    (match time_to with
     | none => true
     | some t => decide (e.timestamp ≤ t)) &&
    (match cursor with
     | none => true
     | some cid => decide (cid < e.id))
  let matched := c.backend.filter keep
  let page := matched.take limit
  let next :=
    if matched.length ≤ limit then (none : Option Nat)
    else page.getLast?.map (fun e => e.id)
  (page, next)

/-- Modelled from the spec: `get_stats()` (§6) — at least queue size,
dropped count and circuit state. -/
structure Stats where
  queue_size : Nat
  dropped_count : Nat
  circuit_state : CircuitState
deriving Repr, DecidableEq

/-- Modelled from the spec: `get_stats()` (§6). -/
def get_stats (c : TokenUsageClient) : Stats :=
  { queue_size := c.buffer.size
    dropped_count := c.buffer.dropped
    circuit_state := c.breaker.state }

end TokenUsageClient

/-- Modelled from the spec: `AggregateBucket` (§3) — bucket time bounds
(present only when grouping has a time dimension; the spec calls them
`start`/`end`), `group_keys`, and the required metrics `sum_total`,
`count_requests`, `avg_total_per_request` (§4.5). -/
structure AggregateBucket where
  start : Option Nat
  stop : Option Nat
  group_keys : List (String × String)
  sum_total : Int
  count_requests : Nat
  avg_total_per_request : ℚ
deriving Repr, DecidableEq

/-- Modelled from the spec: the grouping dimensions of `aggregate`
(§4.4): one of day, hour, project, type. -/
inductive GroupBy where
  | day
  | hour
  | project
  | type
deriving Repr, DecidableEq

/-- Seconds in a UTC day. -/
def secondsPerDay : Nat := 86400

/-- Seconds in an hour. -/
def secondsPerHour : Nat := 3600

/-- Modelled from the spec: day-bucketing truncates `timestamp` to the
UTC day boundary (§4.5); with timestamps in seconds since the epoch the
day index is `timestamp / 86400`. -/
def event_day (e : UsageEvent) : Nat := e.timestamp / secondsPerDay

/-- Modelled from the spec: hour-bucketing truncates `timestamp` to the
hour boundary in UTC (§4.5). -/
def event_hour (e : UsageEvent) : Nat := e.timestamp / secondsPerHour

/-- Generic grouping kernel of the AggregationEngine (§4.5): one bucket
per distinct key occurring among the events (so a group with zero events
is never emitted), carrying `sum_total` = Σ (input_tokens +
output_tokens), `count_requests` = event count, and
`avg_total_per_request` = sum_total / count_requests. -/
def buckets_by {κ : Type} [DecidableEq κ] (key : UsageEvent → κ)
    (info : κ → Option Nat × Option Nat × List (String × String))
    (events : List UsageEvent) : List AggregateBucket :=
  ((events.map key).dedup).map fun k =>
    let evs := events.filter fun e => decide (key e = k)
    let s := (evs.map fun e => e.input_tokens + e.output_tokens).sum
    { start := (info k).1
      stop := (info k).2.1
      group_keys := (info k).2.2
      sum_total := s
      count_requests := evs.length
      avg_total_per_request := (s : ℚ) / (evs.length : ℚ) }

/-- Modelled from the spec: `aggregate(group_by, ...)` semantics over a
set of stored events (§4.4, §4.5): `day`/`hour` bucket by truncating the
UTC timestamp to the bucket boundary, `project`/`type` bucket by exact
string equality on `project`/`request_type`. -/
def aggregate_events : GroupBy → List UsageEvent → List AggregateBucket
  | GroupBy.day, events =>
      buckets_by event_day
        (fun d => (some (d * secondsPerDay),
                   some (d * secondsPerDay + secondsPerDay), [])) events
  | GroupBy.hour, events =>
      buckets_by event_hour
        (fun h => (some (h * secondsPerHour),
                   some (h * secondsPerHour + secondsPerHour), [])) events
  | GroupBy.project, events =>
      buckets_by (fun e => e.project)
        (fun p => (none, none, [("project_name", p)])) events
  | GroupBy.type, events =>
      buckets_by (fun e => e.request_type)
        (fun r => (none, none, [("request_type", r)])) events

/-- Modelled from the spec: `aggregate(group_by, time_from?, time_to?)`
on the client (§6): aggregation is computed over the stored (backend)
events restricted to the optional time range. -/
def TokenUsageClient.aggregate (c : TokenUsageClient) (group_by : GroupBy)
    (time_from : Option Nat := none) (time_to : Option Nat := none) :
    List AggregateBucket :=
  let inRange : UsageEvent → Bool := fun e =>
    (match time_from with
     | none => true
     | some t => decide (t ≤ e.timestamp)) &&
    (match time_to with
     | none => true
     | some t => decide (e.timestamp ≤ t))
  aggregate_events group_by (c.backend.filter inRange)

/-! Concrete sample states used by the witness theorems. -/

/-- A breaker in `Closed` with threshold `F = 5`, cool-down `T = 30` and a
single-probe allowance (`N = 1`). -/
def sample_breaker : CircuitBreaker :=
  { state := CircuitState.Closed
    consecutiveFailures := 0
    lastTransition := 0
    probesInFlight := 0
    failureThreshold := 5
    cooldown := 30
    maxProbes := 1 }

/-- A breaker probing in `HalfOpen` with its single probe in flight. -/
def halfopen_breaker : CircuitBreaker :=
  { sample_breaker with state := CircuitState.HalfOpen, probesInFlight := 1 }

/-- A sample usage event. -/
def sample_event (n : Nat) : UsageEvent :=
  { id := n
    project := "chatbot_app"
    request_type := "chat"
    input_tokens := 120
    output_tokens := 80
    metadata := [("model", "gpt-4")]
    timestamp := 100 + n }

/-- An event on UTC day `d` with distinguishing token counts. -/
def day_event (d n : Nat) : UsageEvent :=
  { id := n
    project := "p"
    request_type := "t"
    input_tokens := Int.ofNat n
    output_tokens := 1
    metadata := []
    timestamp := d * secondsPerDay + n }

/-- Three events spanning exactly two UTC calendar days. -/
def two_day_events : List UsageEvent :=
  [day_event 0 10, day_event 0 20, day_event 1 30]

/-- A freshly initialized client: empty buffer of capacity 10, closed
breaker, empty backend. -/
def fresh_client : TokenUsageClient :=
  { buffer := { capacity := 10, events := [], dropped := 0 }
    breaker := sample_breaker
    backend := []
    next_id := 0
    batch_size := 4
    write_batch_calls := 0 }

/-- A fresh client whose buffer capacity is 2 (the drop-policy scenario). -/
def capacity2_client : TokenUsageClient :=
  { fresh_client with buffer := { capacity := 2, events := [], dropped := 0 } }

/-- The capacity-2 client after three consecutive `log` calls and no
flush. -/
def logged3_client : TokenUsageClient :=
  ((capacity2_client.after_log "a" "chat" 1 2 [] 5).after_log
      "a" "chat" 3 4 [] 6).after_log "a" "chat" 5 6 [] 7

/-- A client with two buffered events and a closed breaker. -/
def logged2_client : TokenUsageClient :=
  (fresh_client.after_log "a" "chat" 1 2 [] 5).after_log "a" "chat" 3 4 [] 6

/-- A client whose breaker entered `Open` at time 10 (cool-down 30). -/
def open_client : TokenUsageClient :=
  { logged2_client with
      breaker := { sample_breaker with
                     state := CircuitState.Open
                     consecutiveFailures := 5
                     lastTransition := 10 } }

/-- A client whose backend already holds one stored event. -/
def stored_client : TokenUsageClient :=
  { fresh_client with backend := [sample_event 0] }

/-- The invariant of §3: every event held by the buffer or the backend has
non-negative token counts. -/
def TokenUsageClient.all_nonneg (c : TokenUsageClient) : Prop :=
  (∀ e ∈ c.buffer.events, 0 ≤ e.input_tokens ∧ 0 ≤ e.output_tokens) ∧
  (∀ e ∈ c.backend, 0 ≤ e.input_tokens ∧ 0 ≤ e.output_tokens)

instance (c : TokenUsageClient) : Decidable c.all_nonneg := by
  unfold TokenUsageClient.all_nonneg
  infer_instance

/-! Helper lemmas shared by the claim theorems. -/

/-- Any event returned by `query` is a stored (backend) event. -/
theorem query_mem_backend (c : TokenUsageClient)
    (project request_type : Option String) (time_from time_to : Option Nat)
    (limit : Nat) (cursor : Option Nat) (e : UsageEvent)
    (he : e ∈ (c.query project request_type time_from time_to limit cursor).1) :
    e ∈ c.backend := by
  unfold TokenUsageClient.query at he
  simp only at he
  have h1 := List.mem_of_mem_take he
  exact (List.mem_filter.mp h1).1

/-- C2: under the default drop policy, `enqueue` on a full buffer returns
not-accepted, leaves the buffered sequence unchanged (the incoming event
is dropped, not the oldest) and increments `dropped_count` by exactly 1;
in particular, with capacity 2 and three consecutive `log` calls and no
flush, `get_stats` reports `queue_size = 2` and `dropped_count = 1`. -/
theorem enqueue_full_drops_incoming (b : EventBuffer) (e : UsageEvent)
    (h : b.size = b.capacity) :
    (b.enqueue e).1 = false ∧
    (b.enqueue e).2.events = b.events ∧
    (b.enqueue e).2.dropped_count = b.dropped_count + 1 ∧
    logged3_client.get_stats.queue_size = 2 ∧
    logged3_client.get_stats.dropped_count = 1 := by
  have hlt : ¬ b.events.length < b.capacity := by
    unfold EventBuffer.size at h
    omega
  refine ⟨?_, ?_, ?_, by decide, by decide⟩ <;>
    simp [EventBuffer.enqueue, EventBuffer.dropped_count, hlt]

/-- Witness for C2: a concrete full buffer of capacity 1. -/
theorem enqueue_full_drops_incoming_witness :
    (({ capacity := 1, events := [sample_event 0], dropped := 0 } :
        EventBuffer).enqueue (sample_event 1)).1 = false ∧
    (({ capacity := 1, events := [sample_event 0], dropped := 0 } :
        EventBuffer).enqueue (sample_event 1)).2.events = [sample_event 0] ∧
    (({ capacity := 1, events := [sample_event 0], dropped := 0 } :
        EventBuffer).enqueue (sample_event 1)).2.dropped_count = 0 + 1 := by
  have h := enqueue_full_drops_incoming
    { capacity := 1, events := [sample_event 0], dropped := 0 }
    (sample_event 1) (by decide)
  exact ⟨h.1, h.2.1, h.2.2.1⟩

/-- C6: `log` with a negative token count is rejected synchronously with
a `ValidationError` (so the event is never buffered); an accepted `log`
preserves the non-negativity invariant over buffer and backend; and under
that invariant every event returned by `query` has non-negative token
counts (so a rejected event never appears in any query result). -/
theorem log_rejects_negative_tokens (c : TokenUsageClient)
    (p rt : String) (ti tout : Int) (md : List (String × String))
    (now : Nat) :
    ((ti < 0 ∨ tout < 0) →
      c.log p rt ti tout md now = Except.error ValidationError.negative_tokens) ∧
    (∀ acc c1, c.log p rt ti tout md now = Except.ok (acc, c1) →
      c.all_nonneg → c1.all_nonneg) ∧
    (c.all_nonneg →
      ∀ (po rto : Option String) (tf tt : Option Nat) (lim : Nat)
        (cur : Option Nat) (e : UsageEvent),
        e ∈ (c.query po rto tf tt lim cur).1 →
        0 ≤ e.input_tokens ∧ 0 ≤ e.output_tokens) := by
  refine ⟨?_, ?_, ?_⟩
  · intro hneg
    simp [TokenUsageClient.log, hneg]
  · intro acc c1 hok hnn
    unfold TokenUsageClient.log at hok
    by_cases hneg : ti < 0 ∨ tout < 0
    · simp [hneg] at hok
    · have hti : 0 ≤ ti := by omega
      have htout : 0 ≤ tout := by omega
      simp only [hneg, if_false, Except.ok.injEq, Prod.mk.injEq] at hok
      obtain ⟨-, hc1⟩ := hok
      subst hc1
      unfold TokenUsageClient.all_nonneg at hnn ⊢
      refine ⟨?_, hnn.2⟩
      intro e he
      simp only [EventBuffer.enqueue] at he
      by_cases hfull : c.buffer.events.length < c.buffer.capacity
      · simp only [hfull, if_true] at he
        rcases List.mem_append.mp he with h1 | h1
        · exact hnn.1 e h1
        · rcases List.mem_singleton.mp h1 with rfl
          exact ⟨hti, htout⟩
      · simp only [hfull, if_false] at he
        exact hnn.1 e he
  · intro hnn po rto tf tt lim cur e he
    exact hnn.2 e (query_mem_backend c po rto tf tt lim cur e he)

/-- Witness for C6: a concrete client rejecting a negative event while a
stored event keeps non-negative counts visible through `query`. -/
theorem log_rejects_negative_tokens_witness :
    stored_client.log "a" "x" (-1) 0 [] 0 =
      Except.error ValidationError.negative_tokens ∧
    (0 ≤ (sample_event 0).input_tokens ∧ 0 ≤ (sample_event 0).output_tokens) := by
  have h := log_rejects_negative_tokens stored_client "a" "x" (-1) 0 [] 0
  refine ⟨h.1 (Or.inl (by decide)), ?_⟩
  exact h.2.2 (by decide) (some "chatbot_app") none none none 100 none
    (sample_event 0) (by decide)

/-- C5: while the circuit is `HalfOpen`, `allow()` returns true exactly
while fewer than `N` probes are in flight (each admission counts one more
probe, so at most `N` concurrent probes are admitted and further attempts
are denied until a probe resolves); the first `record_success()` while
`HalfOpen` closes the circuit, and any `record_failure()` while
`HalfOpen` reopens it. -/
theorem halfopen_probe_gating (cb : CircuitBreaker) (now : Nat)
    (hst : cb.state = CircuitState.HalfOpen)
    (hp : cb.probesInFlight ≤ cb.maxProbes) :
    ((cb.allow now).1 = true ↔ cb.probesInFlight < cb.maxProbes) ∧
    ((cb.allow now).1 = true →
      (cb.allow now).2.probesInFlight = cb.probesInFlight + 1) ∧
    (cb.allow now).2.probesInFlight ≤ cb.maxProbes ∧
    (cb.allow now).2.state = CircuitState.HalfOpen ∧
    (cb.record_success now).state = CircuitState.Closed ∧
    (cb.record_failure now).state = CircuitState.Open := by
  by_cases h : cb.probesInFlight < cb.maxProbes <;>
    simp [CircuitBreaker.allow, CircuitBreaker.record_success,
      CircuitBreaker.record_failure, hst, h] <;>
    omega

/-- Witness for C5: with `N = 1` and one probe in flight, a further
attempt is denied; success closes the circuit, failure reopens it. -/
theorem halfopen_probe_gating_witness :
    ((halfopen_breaker.allow 40).1 = true ↔ 1 < 1) ∧
    (halfopen_breaker.record_success 41).state = CircuitState.Closed ∧
    (halfopen_breaker.record_failure 41).state = CircuitState.Open := by
  have h := halfopen_probe_gating halfopen_breaker 40 rfl (by decide)
  have h2 := halfopen_probe_gating halfopen_breaker 41 rfl (by decide)
  exact ⟨h.1, h2.2.2.2.2.1, h2.2.2.2.2.2⟩

/-- C10: `query` is callable with only a project filter — the remaining
filters, the limit and the cursor all have defaults — and such a call
returns a pair whose event list holds exactly stored events of that
project. -/
theorem query_with_only_project (c : TokenUsageClient) (p : String) :
    ∀ e ∈ (c.query (some p)).1, e ∈ c.backend ∧ e.project = p := by
  intro e he
  refine ⟨query_mem_backend c (some p) none none none 100 none e he, ?_⟩
  unfold TokenUsageClient.query at he
  simp only at he
  have h1 := List.mem_of_mem_take he
  have h2 := (List.mem_filter.mp h1).2
  simp only [Bool.and_eq_true, decide_eq_true_eq] at h2
  exact h2.1.1.1.1

/-- Witness for C10: the stored sample event is returned by a
project-only `query` call and carries that project. -/
theorem query_with_only_project_witness :
    sample_event 0 ∈ (stored_client.query (some "chatbot_app")).1 ∧
    (sample_event 0 ∈ stored_client.backend ∧
      (sample_event 0).project = "chatbot_app") := by
  refine ⟨by decide, ?_⟩
  exact query_with_only_project stored_client "chatbot_app"
    (sample_event 0) (by decide)

/-- No bucket produced by the grouping kernel is empty, and its average
metric is the quotient of its sum and count. -/
theorem buckets_by_pos {κ : Type} [DecidableEq κ] (key : UsageEvent → κ)
    (info : κ → Option Nat × Option Nat × List (String × String))
    (events : List UsageEvent) :
    ∀ b ∈ buckets_by key info events,
      0 < b.count_requests ∧
      b.avg_total_per_request = (b.sum_total : ℚ) / (b.count_requests : ℚ) := by
  intro b hb
  unfold buckets_by at hb
  simp only [List.mem_map] at hb
  obtain ⟨k, hk, hkb⟩ := hb
  subst hkb
  refine ⟨?_, rfl⟩
  rw [List.mem_dedup, List.mem_map] at hk
  obtain ⟨e, he, hke⟩ := hk
  have hmem : e ∈ events.filter fun x => decide (key x = k) :=
    List.mem_filter.mpr ⟨he, by simp [hke]⟩
  simpa using List.length_pos.mpr (List.ne_nil_of_mem hmem)

/-- C8: every bucket returned by `aggregate` has `count_requests > 0`
(a group with zero events is omitted, never emitted), and its
`avg_total_per_request` equals `sum_total / count_requests`, so the
division is never by zero. -/
theorem aggregate_buckets_never_empty (gb : GroupBy)
    (events : List UsageEvent) :
    ∀ b ∈ aggregate_events gb events,
      0 < b.count_requests ∧
      b.avg_total_per_request = (b.sum_total : ℚ) / (b.count_requests : ℚ) := by
  cases gb <;> exact buckets_by_pos _ _ events

/-- Witness for C8: the single project bucket over the two-day sample
events has a positive count and a well-defined average. -/
theorem aggregate_buckets_never_empty_witness :
    ∃ b ∈ aggregate_events GroupBy.project two_day_events,
      0 < b.count_requests ∧
      b.avg_total_per_request = (b.sum_total : ℚ) / (b.count_requests : ℚ) := by
  refine ⟨(aggregate_events GroupBy.project two_day_events).head (by decide),
    List.head_mem _, ?_⟩
  exact aggregate_buckets_never_empty GroupBy.project two_day_events _
    (List.head_mem _)

/-- Reaching the failure threshold from `Closed` drives the breaker to
`Open` and stamps the transition time; configuration fields are
untouched. -/
theorem iterate_failures_closed_to_open (t : Nat) :
    ∀ (n : Nat) (cb : CircuitBreaker), cb.state = CircuitState.Closed →
      cb.consecutiveFailures + n = cb.failureThreshold → 0 < n →
      (iterate_failures cb t n).state = CircuitState.Open ∧
      (iterate_failures cb t n).lastTransition = t ∧
      (iterate_failures cb t n).cooldown = cb.cooldown ∧
      (iterate_failures cb t n).failureThreshold = cb.failureThreshold := by
  intro n
  induction n with
  | zero => intro cb _ _ hn; exact absurd hn (by omega)
  | succ m ih =>
    intro cb hst hcf _
    cases m with
    | zero =>
      have hth : cb.failureThreshold ≤ cb.consecutiveFailures + 1 := by omega
      simp [iterate_failures, CircuitBreaker.record_failure, hst, hth]
    | succ m2 =>
      have hth : ¬ cb.failureThreshold ≤ cb.consecutiveFailures + 1 := by
        omega
      have hrw : cb.record_failure t =
          { cb with consecutiveFailures := cb.consecutiveFailures + 1 } := by
        simp [CircuitBreaker.record_failure, hst, hth]
      have h := ih (cb.record_failure t) (by rw [hrw]; exact hst)
        (by rw [hrw]; simpa using by omega) (by omega)
      rw [hrw] at h
      dsimp only at h
      have hstep : iterate_failures cb t (m2 + 1 + 1) =
          iterate_failures (cb.record_failure t) t (m2 + 1) := rfl
      rw [hstep, hrw]
      exact h

/-- C1: once `record_failure()` has run for `F` consecutive failures
while the circuit is `Closed`, the state is `Open` with the transition
time stamped; every `allow()` call before the cool-down `T` elapses
returns false and leaves the breaker unchanged (and a delivery cycle
against such a breaker is denied without any `write_batch` call); the
`Open → HalfOpen` transition is evaluated lazily on the first `allow()`
call at or after `T` has elapsed. -/
theorem circuit_opens_after_consecutive_failures (cb : CircuitBreaker)
    (t now : Nat) (hst : cb.state = CircuitState.Closed)
    (hcf : cb.consecutiveFailures = 0) (hF : 0 < cb.failureThreshold) :
    (iterate_failures cb t cb.failureThreshold).state = CircuitState.Open ∧
    (iterate_failures cb t cb.failureThreshold).lastTransition = t ∧
    (now < t + cb.cooldown →
      (iterate_failures cb t cb.failureThreshold).allow now =
        (false, iterate_failures cb t cb.failureThreshold) ∧
      (∀ (c : TokenUsageClient) (ok : Bool),
        c.breaker = iterate_failures cb t cb.failureThreshold →
        (c.deliver_once ok now).1 = TokenUsageClient.DeliverResult.denied ∧
        (c.deliver_once ok now).2.write_batch_calls = c.write_batch_calls)) ∧
    (t + cb.cooldown ≤ now →
      ((iterate_failures cb t cb.failureThreshold).allow now).1 = true ∧
      ((iterate_failures cb t cb.failureThreshold).allow now).2.state =
        CircuitState.HalfOpen) := by
  obtain ⟨hopen, hlast, hcool, -⟩ :=
    iterate_failures_closed_to_open t cb.failureThreshold cb hst
      (by omega) hF
  refine ⟨hopen, hlast, ?_, ?_⟩
  · intro hnow
    have hlt : ¬ (iterate_failures cb t cb.failureThreshold).lastTransition +
        (iterate_failures cb t cb.failureThreshold).cooldown ≤ now := by
      rw [hlast, hcool]; omega
    have hallow : (iterate_failures cb t cb.failureThreshold).allow now =
        (false, iterate_failures cb t cb.failureThreshold) := by
      simp [CircuitBreaker.allow, hopen, hlt]
    refine ⟨hallow, ?_⟩
    intro c ok hc
    simp [TokenUsageClient.deliver_once, hc, hallow]
  · intro hnow
    have hle : (iterate_failures cb t cb.failureThreshold).lastTransition +
        (iterate_failures cb t cb.failureThreshold).cooldown ≤ now := by
      rw [hlast, hcool]; omega
    simp [CircuitBreaker.allow, hopen, hle]

/-- Witness for C1: with `F = 5`, `T = 30` and failures recorded at time
10, the breaker is `Open`, `allow` at time 15 is denied, and `allow` at
time 45 lazily moves the breaker to `HalfOpen`. -/
theorem circuit_opens_after_consecutive_failures_witness :
    (iterate_failures sample_breaker 10 5).state = CircuitState.Open ∧
    ((iterate_failures sample_breaker 10 5).allow 15).1 = false ∧
    ((iterate_failures sample_breaker 10 5).allow 45).2.state =
      CircuitState.HalfOpen := by
  have h15 := circuit_opens_after_consecutive_failures sample_breaker 10 15
    rfl rfl (by decide)
  have h45 := circuit_opens_after_consecutive_failures sample_breaker 10 45
    rfl rfl (by decide)
  refine ⟨h15.1, ?_, (h45.2.2.2 (by decide)).2⟩
  exact congrArg Prod.fst ((h15.2.2.1 (by decide)).1)

/-- C4: when `write_batch` fails, the delivery cycle records the failure
on the breaker and re-enqueues the batch at the front of the buffer: the
kept events are a prefix of the batch (relative order preserved), the
pending events stay behind them, the buffer never exceeds its capacity,
and every batch event that does not fit is added to `dropped_count`. -/
theorem failed_batch_reenqueued_at_front (c : TokenUsageClient) (now : Nat)
    (hallow : (c.breaker.allow now).1 = true)
    (hne : c.buffer.events ≠ [])
    (hB : 0 < c.batch_size)
    (hcap : c.buffer.events.length ≤ c.buffer.capacity) :
    (c.deliver_once false now).1 = TokenUsageClient.DeliverResult.failure ∧
    (c.deliver_once false now).2.breaker =
      ((c.breaker.allow now).2).record_failure now ∧
    (c.deliver_once false now).2.buffer.events =
      (c.buffer.events.take c.batch_size).take
          (c.buffer.capacity - (c.buffer.events.drop c.batch_size).length) ++
        c.buffer.events.drop c.batch_size ∧
    (c.deliver_once false now).2.buffer.dropped_count =
      c.buffer.dropped_count +
        ((c.buffer.events.take c.batch_size).length -
          (c.buffer.capacity - (c.buffer.events.drop c.batch_size).length)) ∧
    (c.deliver_once false now).2.buffer.events.length ≤ c.buffer.capacity ∧
    (∃ rest, c.buffer.events.take c.batch_size =
      (c.buffer.events.take c.batch_size).take
          (c.buffer.capacity - (c.buffer.events.drop c.batch_size).length) ++
        rest) := by
  have hbne : ¬ c.buffer.events.take c.batch_size = [] := by
    simp [List.take_eq_nil_iff, hne]
    omega
  have hdel : c.deliver_once false now =
      (TokenUsageClient.DeliverResult.failure,
       { c with
           breaker := ((c.breaker.allow now).2).record_failure now
           buffer := ({ c.buffer with
               events := c.buffer.events.drop c.batch_size } :
               EventBuffer).reenqueue_front
             (c.buffer.events.take c.batch_size)
           write_batch_calls := c.write_batch_calls + 1 }) := by
    unfold TokenUsageClient.deliver_once EventBuffer.dequeue_batch
    simp [hallow, hbne]
  rw [hdel]
  unfold EventBuffer.reenqueue_front EventBuffer.dropped_count
  refine ⟨rfl, rfl, rfl, rfl, ?_, ?_⟩
  · simp only [List.length_append, List.length_take, List.length_drop]
    omega
  · exact ⟨(c.buffer.events.take c.batch_size).drop
        (c.buffer.capacity - (c.buffer.events.drop c.batch_size).length),
      (List.take_append_drop _ _).symm⟩

/-- Witness for C4: a failing write of a 1-event batch from a client with
two buffered events re-enqueues the batch event at the front. -/
theorem failed_batch_reenqueued_at_front_witness :
    (logged2_client.deliver_once false 9).1 =
      TokenUsageClient.DeliverResult.failure ∧
    (logged2_client.deliver_once false 9).2.buffer.events =
      (logged2_client.buffer.events.take logged2_client.batch_size).take
          (logged2_client.buffer.capacity -
            (logged2_client.buffer.events.drop
              logged2_client.batch_size).length) ++
        logged2_client.buffer.events.drop logged2_client.batch_size := by
  have h := failed_batch_reenqueued_at_front logged2_client 9
    (by decide) (by decide) (by decide) (by decide)
  exact ⟨h.1, h.2.2.1⟩

/-- With a closed breaker and a healthy backend, enough delivery cycles
drain the whole buffer: every buffered event is delivered (in order) to
the backend and the delivered count equals the initial queue size. -/
theorem flush_loop_drains (now : Nat) :
    ∀ (fuel : Nat) (c : TokenUsageClient),
      c.breaker.state = CircuitState.Closed → 0 < c.batch_size →
      c.buffer.events.length ≤ fuel * c.batch_size →
      (flush_loop true now fuel c).1 = c.buffer.events.length ∧
      (flush_loop true now fuel c).2.backend =
        c.backend ++ c.buffer.events ∧
      (flush_loop true now fuel c).2.buffer.events = [] := by
  intro fuel
  induction fuel with
  | zero =>
    intro c hst hB hlen
    have hnil : c.buffer.events = [] := by
      rw [← List.length_eq_zero]
      omega
    simp [flush_loop, hnil]
  | succ fuel ih =>
    intro c hst hB hlen
    have hallow : c.breaker.allow now = (true, c.breaker) := by
      simp [CircuitBreaker.allow, hst]
    by_cases hnil : c.buffer.events = []
    · have hdel : c.deliver_once true now =
          (TokenUsageClient.DeliverResult.idle,
           { c with
               breaker := c.breaker
               buffer := { c.buffer with
                 events := c.buffer.events.drop c.batch_size } }) := by
        unfold TokenUsageClient.deliver_once EventBuffer.dequeue_batch
        simp [hallow, hnil]
      simp [flush_loop, hdel, hnil]
    · have hbne : ¬ c.buffer.events.take c.batch_size = [] := by
        simp [List.take_eq_nil_iff, hnil]
        omega
      have hdel : c.deliver_once true now =
          (TokenUsageClient.DeliverResult.success
            (c.buffer.events.take c.batch_size).length,
           { c with
               breaker := c.breaker.record_success now
               buffer := { c.buffer with
                 events := c.buffer.events.drop c.batch_size }
               backend := c.backend ++ c.buffer.events.take c.batch_size
               write_batch_calls := c.write_batch_calls + 1 }) := by
        unfold TokenUsageClient.deliver_once EventBuffer.dequeue_batch
        simp [hallow, hbne]
      have hstClosed : (c.breaker.record_success now).state =
          CircuitState.Closed := by
        simp [CircuitBreaker.record_success, hst]
      have h := ih
        { c with
            breaker := c.breaker.record_success now
            buffer := { c.buffer with
              events := c.buffer.events.drop c.batch_size }
            backend := c.backend ++ c.buffer.events.take c.batch_size
            write_batch_calls := c.write_batch_calls + 1 }
        hstClosed hB
        (by
          simp only [List.length_drop]
          have := hlen
          simp only [Nat.succ_mul] at this
          omega)
      simp only [flush_loop, hdel] at *
      refine ⟨?_, ?_, h.2.2⟩
      · rw [h.1]
        simp only [List.length_take, List.length_drop]
        omega
      · rw [h.2.1]
        simp only [List.append_assoc, List.take_append_drop]

/-- C3: `flush` runs through the normal delivery path and does not bypass
the circuit breaker: while the circuit is `Open` and the cool-down has
not elapsed, a `flush` call delivers nothing and performs no backend
call; and with a closed circuit and a healthy backend, `flush` returns
exactly the number of events successfully delivered during the call (the
whole queue once the timeout budget covers it). -/
theorem flush_does_not_bypass_breaker (c : TokenUsageClient)
    (timeout now : Nat) (backend_ok : Bool) :
    (c.breaker.state = CircuitState.Open →
      now < c.breaker.lastTransition + c.breaker.cooldown →
      (c.flush timeout backend_ok now).1 = 0 ∧
      (c.flush timeout backend_ok now).2.write_batch_calls =
        c.write_batch_calls) ∧
    (c.breaker.state = CircuitState.Closed → backend_ok = true →
      0 < c.batch_size →
      c.buffer.events.length ≤ timeout * c.batch_size →
      (c.flush timeout backend_ok now).1 = c.buffer.events.length ∧
      (c.flush timeout backend_ok now).2.backend =
        c.backend ++ c.buffer.events ∧
      (c.flush timeout backend_ok now).2.buffer.events = []) := by
  constructor
  · intro hst hcool
    have hallow : c.breaker.allow now = (false, c.breaker) := by
      have hlt : ¬ c.breaker.lastTransition + c.breaker.cooldown ≤ now := by
        omega
      simp [CircuitBreaker.allow, hst, hlt]
    cases timeout with
    | zero => simp [TokenUsageClient.flush, flush_loop]
    | succ fuel =>
      have hdel : c.deliver_once backend_ok now =
          (TokenUsageClient.DeliverResult.denied,
           { c with breaker := c.breaker }) := by
        unfold TokenUsageClient.deliver_once
        simp [hallow]
      simp [TokenUsageClient.flush, flush_loop, hdel]
  · intro hst hok hB hlen
    subst hok
    exact flush_loop_drains now timeout c hst hB hlen

/-- Witness for C3: a flush against an open circuit delivers nothing and
makes no backend call, while a flush with a closed circuit delivers the
whole 2-event queue. -/
theorem flush_does_not_bypass_breaker_witness :
    ((open_client.flush 3 true 15).1 = 0 ∧
      (open_client.flush 3 true 15).2.write_batch_calls =
        open_client.write_batch_calls) ∧
    (logged2_client.flush 5 true 9).1 = logged2_client.buffer.events.length := by
  have h := flush_does_not_bypass_breaker open_client 3 15 true
  have h2 := flush_does_not_bypass_breaker logged2_client 5 9 true
  exact ⟨h.1 rfl (by decide), (h2.2 rfl rfl (by decide) (by decide)).1⟩

/-- C7: when the stored events span exactly two UTC calendar days,
`aggregate` grouped by day returns exactly two buckets, each obtained by
truncating timestamps to the UTC day boundary, with `sum_total` the sum
of `input_tokens + output_tokens` over that day's events and
`count_requests` the number of that day's events. -/
theorem aggregate_day_two_buckets (events : List UsageEvent) (d1 d2 : Nat)
    (h : (events.map event_day).dedup = [d1, d2]) :
    (aggregate_events GroupBy.day events).length = 2 ∧
    ∀ b ∈ aggregate_events GroupBy.day events,
      ∃ d, (d = d1 ∨ d = d2) ∧
        b.start = some (d * secondsPerDay) ∧
        b.stop = some (d * secondsPerDay + secondsPerDay) ∧
        b.sum_total = ((events.filter fun e => decide (event_day e = d)).map
            fun e => e.input_tokens + e.output_tokens).sum ∧
        b.count_requests =
          (events.filter fun e => decide (event_day e = d)).length := by
  have hrw : aggregate_events GroupBy.day events =
      [d1, d2].map (fun d =>
        let evs := events.filter fun e => decide (event_day e = d)
        let s := (evs.map fun e => e.input_tokens + e.output_tokens).sum
        { start := some (d * secondsPerDay)
          stop := some (d * secondsPerDay + secondsPerDay)
          group_keys := []
          sum_total := s
          count_requests := evs.length
          avg_total_per_request := (s : ℚ) / (evs.length : ℚ) }) := by
    simp only [aggregate_events, buckets_by]
    rw [h]
  rw [hrw]
  refine ⟨rfl, ?_⟩
  intro b hb
  simp only [List.map_cons, List.map_nil, List.mem_cons,
    List.not_mem_nil, or_false] at hb
  rcases hb with rfl | rfl
  · exact ⟨d1, Or.inl rfl, rfl, rfl, rfl, rfl⟩
  · exact ⟨d2, Or.inr rfl, rfl, rfl, rfl, rfl⟩

/-- Witness for C7: three concrete events on UTC days 0 and 1. -/
theorem aggregate_day_two_buckets_witness :
    (aggregate_events GroupBy.day two_day_events).length = 2 ∧
    ∀ b ∈ aggregate_events GroupBy.day two_day_events,
      ∃ d, (d = 0 ∨ d = 1) ∧
        b.start = some (d * secondsPerDay) ∧
        b.stop = some (d * secondsPerDay + secondsPerDay) ∧
        b.sum_total =
          ((two_day_events.filter fun e => decide (event_day e = d)).map
            fun e => e.input_tokens + e.output_tokens).sum ∧
        b.count_requests =
          (two_day_events.filter fun e => decide (event_day e = d)).length :=
  aggregate_day_two_buckets two_day_events 0 1 (by decide)

/-- A `query` call filtered only by project on a client whose backend
holds exactly one event of that project returns exactly that event. -/
theorem query_singleton_backend (cc : TokenUsageClient) (e : UsageEvent)
    (p : String) (hcc : cc.backend = [e]) (hp : e.project = p) :
    (cc.query (some p)).1 = [e] := by
  unfold TokenUsageClient.query
  simp [hcc, hp]

/-- C9: logging an event with non-negative token counts on a fresh
client (empty buffer and backend, closed circuit), then flushing through
a healthy backend and querying by the same project, returns an event
whose `input_tokens`, `output_tokens` and `metadata` (and project and
request type) are identical to the logged values. -/
theorem log_flush_query_roundtrip (p rt : String) (ti tout : Int)
    (md : List (String × String)) (c : TokenUsageClient)
    (now later timeout : Nat)
    (hti : 0 ≤ ti) (htout : 0 ≤ tout)
    (hst : c.breaker.state = CircuitState.Closed)
    (hbuf : c.buffer.events = [])
    (hcap : 0 < c.buffer.capacity)
    (hback : c.backend = [])
    (hB : 0 < c.batch_size) (hT : 0 < timeout) :
    ∃ e ∈ ((((c.after_log p rt ti tout md now).flush timeout true
        later).2).query (some p)).1,
      e.input_tokens = ti ∧ e.output_tokens = tout ∧ e.metadata = md ∧
      e.project = p ∧ e.request_type = rt := by
  have hneg : ¬ (ti < 0 ∨ tout < 0) := by omega
  have hfull : c.buffer.events.length < c.buffer.capacity := by
    rw [hbuf]
    simpa using hcap
  have hlog : c.after_log p rt ti tout md now =
      { c with
          buffer := { c.buffer with events := c.buffer.events ++
            [{ id := c.next_id
               project := p
               request_type := rt
               input_tokens := ti
               output_tokens := tout
               metadata := md
               timestamp := now }] }
          next_id := c.next_id + 1 } := by
    unfold TokenUsageClient.after_log TokenUsageClient.log
      EventBuffer.enqueue
    simp [hneg, hfull]
  rw [hlog]
  have hdrain := flush_loop_drains later timeout
    { c with
        buffer := { c.buffer with events := c.buffer.events ++
          [{ id := c.next_id
             project := p
             request_type := rt
             input_tokens := ti
             output_tokens := tout
             metadata := md
             timestamp := now }] }
        next_id := c.next_id + 1 }
    hst hB
    (by
      have hmul := Nat.mul_pos hT hB
      simp only [List.length_append, hbuf, List.length_nil,
        List.length_singleton]
      omega)
  have hbackend :
      ((({ c with
          buffer := { c.buffer with events := c.buffer.events ++
            [{ id := c.next_id
               project := p
               request_type := rt
               input_tokens := ti
               output_tokens := tout
               metadata := md
               timestamp := now }] }
          next_id := c.next_id + 1 } : TokenUsageClient).flush timeout true
        later).2).backend =
      [{ id := c.next_id
         project := p
         request_type := rt
         input_tokens := ti
         output_tokens := tout
         metadata := md
         timestamp := now }] := by
    rw [TokenUsageClient.flush] at *
    rw [hdrain.2.1]
    simp [hback, hbuf]
  refine ⟨{ id := c.next_id
            project := p
            request_type := rt
            input_tokens := ti
            output_tokens := tout
            metadata := md
            timestamp := now }, ?_, rfl, rfl, rfl, rfl, rfl⟩
  rw [query_singleton_backend _ _ p hbackend rfl]
  exact List.mem_singleton_self _

/-- Witness for C9: the spec's example — `input_tokens = 120`,
`output_tokens = 80`, `metadata = [("model", "gpt-4")]` — logged on a
fresh client, flushed, and queried back by project. -/
theorem log_flush_query_roundtrip_witness :
    ∃ e ∈ ((((fresh_client.after_log "chatbot_app" "chat" 120 80
        [("model", "gpt-4")] 100).flush 1 true 101).2).query
        (some "chatbot_app")).1,
      e.input_tokens = 120 ∧ e.output_tokens = 80 ∧
      e.metadata = [("model", "gpt-4")] ∧
      e.project = "chatbot_app" ∧ e.request_type = "chat" :=
  log_flush_query_roundtrip "chatbot_app" "chat" 120 80
    [("model", "gpt-4")] fresh_client 100 101 1 (by decide) (by decide)
    rfl rfl (by decide) rfl (by decide) (by decide)
